import Mathlib

/-!
Verification development for the timeline visualization (`src/timeline.js`).

The JavaScript source is shallowly embedded below:

* pixel quantities and JavaScript numbers are modelled as rationals (`ℚ`);
  a JavaScript computation that can produce `NaN`/`undefined` is modelled
  with `Option ℚ` (`none` is `NaN`);
* a JavaScript `Date` is modelled by its calendar year together with the
  millisecond offset from January 1st of that year (`JSDate`), which is all
  `yScale` reads from a date (`getFullYear`, and differences against the
  surrounding January-1st instants);
* `wrapText` is modelled as a pure fold over the whitespace-split word list,
  with the rendering surface's `getComputedTextLength` abstracted as a
  `measure : String → ℚ` callback applied to the tentative line text;
* the scroll/hover opacity logic is modelled as explicit state passing on a
  `VizState` record holding `currentActiveIndex` and the per-index opacity.
-/

/-! ## Layout constants (from `drawTimeline`) -/

def yearHeight : ℚ := 1200

def year2021LineHeight : ℚ := 150

def otherYearLineHeight : ℚ := yearHeight - 100

def gapBetweenYears : ℚ := 100

def years : List Int := [2021, 2022, 2023, 2024, 2025, 2026]

/-- Cumulative start offset of each year segment, mirroring the construction
of the `yearPositions` array: index 0 is `0`, index 1 is
`year2021LineHeight + gapBetweenYears`, and each later index adds
`otherYearLineHeight + gapBetweenYears` to the previous one. -/
def yearPosition : Nat → ℚ
  | 0 => 0
  | 1 => year2021LineHeight + gapBetweenYears
  | n + 2 => yearPosition (n + 1) + otherYearLineHeight + gapBetweenYears

/-- The `yearPositions` array of the source, one entry per configured year. -/
def yearPositions : List ℚ := (List.range years.length).map yearPosition

/-! ## Date model -/

/-- A JavaScript `Date` as consumed by `yScale`: its calendar year
(`getFullYear()`) and the millisecond offset from January 1st of that year
(`date - yearStart` in the source). -/
structure JSDate where
  year : Int
  ms : ℚ
deriving DecidableEq

/-- Gregorian leap-year test, fixing the length of a calendar year. -/
def isLeapYear (y : Int) : Prop := (y % 4 = 0 ∧ y % 100 ≠ 0) ∨ y % 400 = 0

instance (y : Int) : Decidable (isLeapYear y) := by unfold isLeapYear; infer_instance

def daysInYear (y : Int) : ℚ := if isLeapYear y then 366 else 365

/-- The length `new Date(year + 1, 0, 1) - new Date(year, 0, 1)` of a calendar
year in milliseconds. -/
def msInYear (y : Int) : ℚ := daysInYear y * 86400000

/-- A `JSDate` actually denoting an instant inside its calendar year. -/
def JSDate.wf (d : JSDate) : Prop := 0 ≤ d.ms ∧ d.ms < msInYear d.year

/-- JavaScript array indexing `l[i]` for a possibly negative or overlarge
index: out of bounds yields `undefined`, modelled as `none`. -/
def listGetJS (l : List ℚ) (i : Int) : Option ℚ :=
  if i < 0 then none else l[i.toNat]?

/-! ## The position mapping `yScale` -/

/-- The custom scale of `drawTimeline`.  `none` models the `NaN` that arises
in JavaScript when `yearPositions[yearIndex]` is `undefined` and is added to
a number. -/
def yScale (d : JSDate) : Option ℚ :=
  let yearProgress : ℚ := d.ms / msInYear d.year
  let yearIndex : Int := d.year - 2021
  if yearIndex = 0 then
    some (yearProgress * year2021LineHeight)
  else
    match listGetJS yearPositions yearIndex with
    | some yearStartY => some (yearStartY + yearProgress * otherYearLineHeight)
    | none => none

/-- The y-coordinate actually used for a milestone's `transform`: `yScale`,
overridden to the centre of the short 2021 line for year-2021 dates. -/
def milestoneY (d : JSDate) : Option ℚ :=
  if d.year = 2021 then some (year2021LineHeight / 2) else yScale d

/-! ## Text wrapping (`wrapText`) -/

/-- Whitespace as matched by the `\s` class of the split pattern. -/
def isJsSpace (c : Char) : Bool :=
  c = ' ' || c = '\t' || c = '\n' || c = '\r' || c = Char.ofNat 11 || c = Char.ofNat 12

/-- One pass of `text.split(/\s+\x2f)`: a run of whitespace separates fields, a
leading or trailing run contributes an empty field, and the empty string
yields the single field `""`. -/
def splitWsAux : List Char → List Char → Bool → List (List Char) → List (List Char)
  | [], cur, _, acc => acc ++ [cur.reverse]
  | c :: cs, cur, inSep, acc =>
    if isJsSpace c then
      if inSep then splitWsAux cs cur true acc
      else splitWsAux cs [] true (acc ++ [cur.reverse])
    else splitWsAux cs (c :: cur) false acc

/-- The split `text.split` on one-or-more whitespace of the source
(`const words = text.split(...)`). -/
def splitWs (s : String) : List String :=
  (splitWsAux s.data [] false []).map String.mk

/-- The join `line.join` with a single-space separator of the source. -/
def joinWords : List String → String
  | [] => ""
  | [w] => w
  | w :: x :: ws => w ++ " " ++ joinWords (x :: ws)

/-- One iteration of the `words.forEach` loop of `wrapText`: push the word
onto the current line, measure the tentative joined text, and on overflow
commit the popped line and restart the line with just this word.  The state
is (committed lines, current line). -/
def wrapStep (measure : String → ℚ) (maxWidth : ℚ)
    (st : List (List String) × List String) (word : String) :
    List (List String) × List String :=
  let tentative := st.2 ++ [word]
  if measure (joinWords tentative) > maxWidth then
    (st.1 ++ [st.2], [word])
  else
    (st.1, tentative)

/-- The lines materialized as `tspan`s (as word lists; each `tspan`'s text is
the `joinWords` of its entry) and the returned line count. -/
structure WrapResult where
  lines : List (List String)
  lineCount : Nat
deriving DecidableEq

/-- The word-processing core of `wrapText`: fold the loop body over the
words; the final `tspan` holds the remaining current line, and the returned
count is `lineNumber + 1` where `lineNumber` counted the overflow breaks. -/
def wrapWords (measure : String → ℚ) (maxWidth : ℚ) (words : List String) : WrapResult :=
  let st := words.foldl (wrapStep measure maxWidth) ([], [])
  ⟨st.1 ++ [st.2], st.1.length + 1⟩

/-- The function `wrapText(textElement, text, maxWidth)` with the rendering
surface's text measurement injected as `measure`. -/
def wrapText (measure : String → ℚ) (maxWidth : ℚ) (text : String) : WrapResult :=
  wrapWords measure maxWidth (splitWs text)

/-- A sample measure: the rendered width of a string is its length. -/
def lengthMeasure (s : String) : ℚ := s.length

/-! ## Category colors -/

/-- The mapping `config.categoryColors`. -/
def categoryColors : List (String × String) :=
  [("Founding", "#1D315F"),
   ("Financial Milestones", "#B5704B"),
   ("Collaborations and Workshops", "#CEC1B4"),
   ("Team Expansion", "#6DB357"),
   ("Knowledge Expansion", "#D5E398"),
   ("Project Developments", "#D3E5EF"),
   ("Publications and Media", "#EAB942")]

/-- The mapping `config.colors`: the only keys defined are `timeline` and
`text`. -/
def configColors : List (String × String) :=
  [("timeline", "#000000"), ("text", "#000000")]

/-- JavaScript `a || b` on possibly-undefined strings: `undefined` and the
empty string are falsy. -/
def jsOrString (a b : Option String) : Option String :=
  match a with
  | some s => if s = "" then b else some s
  | none => b

/-- The expression `config.categoryColors[d.category] || config.colors.milestone`
from the
milestone-marker drawing code.  `none` models `undefined`. -/
def milestoneColor (category : String) : Option String :=
  jsOrString (categoryColors.lookup category) (configColors.lookup "milestone")

/-! ## Scroll-activation and hover state -/

/-- The mutable visual state touched by `activateMilestone` and the hover
handlers: the global `currentActiveIndex` and each milestone's `opacity`
attribute, indexed by milestone position. -/
structure VizState where
  currentActiveIndex : ℕ
  opacity : ℕ → ℚ

/-- The opacity written for each index `i` when index `activeIndex` is
activated: `isActive ? 1 : isPast ? 0.6 : 0.3`. -/
def emphasisPattern (activeIndex : ℕ) : ℕ → ℚ :=
  fun i => if i = activeIndex then 1 else if i < activeIndex then 0.6 else 0.3

/-- The function `activateMilestone(index)`: early-return when the index is already
active, otherwise store the index and write the emphasis pattern. -/
def activateMilestone (index : ℕ) (s : VizState) : VizState :=
  if s.currentActiveIndex = index then s
  else { currentActiveIndex := index, opacity := emphasisPattern index }

/-- The opacity written for each index `i` by the `mouseenter` handler when
index `hoveredIndex` is hovered. -/
def hoverPattern (hoveredIndex : ℕ) : ℕ → ℚ :=
  fun i => if i = hoveredIndex then 1 else 0.3

/-- The `mouseenter` handler: write the hover pattern; `currentActiveIndex`
is not touched. -/
def mouseenter (hoveredIndex : ℕ) (s : VizState) : VizState :=
  { s with opacity := hoverPattern hoveredIndex }

/-- The `mouseleave` handler: restore the opacity from the stored
`currentActiveIndex`. -/
def mouseleave (s : VizState) : VizState :=
  { s with opacity := emphasisPattern s.currentActiveIndex }

/-- The opacity written by `drawTimeline` right after the join:
`i === 0 ? 1 : 0.3`. -/
def initialOpacity : ℕ → ℚ :=
  fun i => if i = 0 then 1 else 0.3

/-! ## Supporting lemmas -/

lemma yearPositions_eq : yearPositions = [0, 250, 1450, 2650, 3850, 5050] := by
  have h2 : yearPosition 2 = yearPosition 1 + otherYearLineHeight + gapBetweenYears := rfl
  have h3 : yearPosition 3 = yearPosition 2 + otherYearLineHeight + gapBetweenYears := rfl
  have h4 : yearPosition 4 = yearPosition 3 + otherYearLineHeight + gapBetweenYears := rfl
  have h5 : yearPosition 5 = yearPosition 4 + otherYearLineHeight + gapBetweenYears := rfl
  have hr : List.range years.length = [0, 1, 2, 3, 4, 5] := by decide
  simp only [yearPositions, hr, List.map_cons, List.map_nil]
  norm_num [yearPosition, h2, h3, h4, h5, year2021LineHeight, otherYearLineHeight,
    yearHeight, gapBetweenYears]

lemma yearPositions_length : yearPositions.length = 6 := by
  rw [yearPositions_eq]
  rfl

lemma msInYear_pos (y : Int) : 0 < msInYear y := by
  simp only [msInYear, daysInYear]
  split <;> norm_num

lemma msInYear_ge (y : Int) : 365 * 86400000 ≤ msInYear y := by
  simp only [msInYear, daysInYear]
  split <;> norm_num

/-- Value of `yearPosition` at index 1. -/
lemma yearPosition_1 : yearPosition 1 = 250 := by
  have h : yearPosition 1 = year2021LineHeight + gapBetweenYears := rfl
  rw [h]
  norm_num [year2021LineHeight, gapBetweenYears]

/-- Value of `yearPosition` at index 2. -/
lemma yearPosition_2 : yearPosition 2 = 1450 := by
  have h : yearPosition 2 = yearPosition 1 + otherYearLineHeight + gapBetweenYears := rfl
  rw [h, yearPosition_1]
  norm_num [otherYearLineHeight, yearHeight, gapBetweenYears]

/-- Value of `yearPosition` at index 3. -/
lemma yearPosition_3 : yearPosition 3 = 2650 := by
  have h : yearPosition 3 = yearPosition 2 + otherYearLineHeight + gapBetweenYears := rfl
  rw [h, yearPosition_2]
  norm_num [otherYearLineHeight, yearHeight, gapBetweenYears]

/-- Value of `yearPosition` at index 4. -/
lemma yearPosition_4 : yearPosition 4 = 3850 := by
  have h : yearPosition 4 = yearPosition 3 + otherYearLineHeight + gapBetweenYears := rfl
  rw [h, yearPosition_3]
  norm_num [otherYearLineHeight, yearHeight, gapBetweenYears]

/-- Value of `yearPosition` at index 5. -/
lemma yearPosition_5 : yearPosition 5 = 5050 := by
  have h : yearPosition 5 = yearPosition 4 + otherYearLineHeight + gapBetweenYears := rfl
  rw [h, yearPosition_4]
  norm_num [otherYearLineHeight, yearHeight, gapBetweenYears]

/-- Evaluation of `yScale` on a date whose year lies in the configured
2021 to 2026 range: the segment start plus the in-year progress scaled by the
segment length. -/
lemma yScale_in_range (y : Int) (m : ℚ) (h1 : 2021 ≤ y) (h2 : y ≤ 2026) :
    yScale ⟨y, m⟩ = some (yearPosition (y - 2021).toNat +
      m / msInYear y * (if y = 2021 then year2021LineHeight else otherYearLineHeight)) := by
  interval_cases y
  · simp only [yScale, listGetJS, yearPositions_eq]
    norm_num [yearPosition]
  · simp only [yScale, listGetJS, yearPositions_eq]
    norm_num [Int.toNat_ofNat, yearPosition_1]
  · simp only [yScale, listGetJS, yearPositions_eq]
    norm_num
    show (1450:ℚ) = yearPosition 2
    rw [yearPosition_2]
  · simp only [yScale, listGetJS, yearPositions_eq]
    norm_num
    show (2650:ℚ) = yearPosition 3
    rw [yearPosition_3]
  · simp only [yScale, listGetJS, yearPositions_eq]
    norm_num
    show (3850:ℚ) = yearPosition 4
    rw [yearPosition_4]
  · simp only [yScale, listGetJS, yearPositions_eq]
    norm_num
    show (5050:ℚ) = yearPosition 5
    rw [yearPosition_5]

/-! ## Claim theorems -/

/-- C1 counterexample: the date 2020-06-15 (day 166 of the out-of-range year
2020) does not get a finite extrapolated pixel value from `yScale`; the
result is `NaN` (modelled `none`), refuting the claim that out-of-range
dates are still mapped to a finite extrapolated coordinate. -/
theorem yScale_extrapolates_counterexample :
    yScale ⟨2020, 166 * 86400000⟩ = none := by
  simp only [yScale, listGetJS]
  norm_num

/-- C1 (amended): for every date whose calendar year lies outside the
configured 2021 to 2026 range, `yScale` does not reject the date (it throws
nothing), but it does not extrapolate a finite pixel value either: the
`yearPositions[yearIndex]` lookup is out of bounds, giving `undefined`, so
the returned coordinate is `NaN` (modelled as `none`). -/
theorem yScale_out_of_range_nan (d : JSDate)
    (h : d.year < 2021 ∨ 2026 < d.year) : yScale d = none := by
  have hne : ¬(d.year - 2021 = 0) := by omega
  have hnone : listGetJS yearPositions (d.year - 2021) = none := by
    rcases h with h | h
    · simp only [listGetJS, if_pos (show d.year - 2021 < 0 by omega)]
    · simp only [listGetJS, if_neg (show ¬(d.year - 2021 < 0) by omega)]
      apply List.getElem?_eq_none
      rw [yearPositions_length]
      omega
  simp only [yScale, if_neg hne, hnone]

/-- C1 witness: the amended theorem applied to 2027-01-01. -/
theorem yScale_out_of_range_nan_witness :
    ((2027:Int) < 2021 ∨ (2026:Int) < 2027) ∧ yScale ⟨2027, 0⟩ = none :=
  ⟨Or.inr (by norm_num), yScale_out_of_range_nan ⟨2027, 0⟩ (Or.inr (by norm_num))⟩

/-- C3: with the configured segment lengths (150px for 2021, 1100px for each
later year) and the 100px gap, the cumulative segment starts obey
`start[0] = 0` and `start[i] = start[i-1] + length[i-1] + gap`, and the
mapping sends 2021-03-01 (day 59 of the 365-day year 2021) to
`150 * (59 / 365)` and 2022-06-15 (day 165 of the 365-day year 2022) to
`250 + 1100 * (165 / 365)`, the exact day-count fractions. -/
theorem yearPositions_recurrence_and_scenario :
    year2021LineHeight = 150 ∧ otherYearLineHeight = 1100 ∧ gapBetweenYears = 100 ∧
    yearPosition 0 = 0 ∧
    yearPosition 1 = yearPosition 0 + year2021LineHeight + gapBetweenYears ∧
    yearPosition 2 = yearPosition 1 + otherYearLineHeight + gapBetweenYears ∧
    yearPosition 3 = yearPosition 2 + otherYearLineHeight + gapBetweenYears ∧
    yearPosition 4 = yearPosition 3 + otherYearLineHeight + gapBetweenYears ∧
    yearPosition 5 = yearPosition 4 + otherYearLineHeight + gapBetweenYears ∧
    yScale ⟨2021, 59 * 86400000⟩ = some (150 * (59 / 365)) ∧
    yScale ⟨2022, 165 * 86400000⟩ = some (250 + 1100 * (165 / 365)) := by
  refine ⟨rfl, by norm_num [otherYearLineHeight, yearHeight], rfl, rfl, ?_, rfl, rfl, rfl, rfl,
    ?_, ?_⟩
  · have h : yearPosition 1 = year2021LineHeight + gapBetweenYears := rfl
    rw [h]
    have h0 : yearPosition 0 = 0 := rfl
    rw [h0]
    ring
  · simp only [yScale, msInYear, daysInYear]
    norm_num [isLeapYear, year2021LineHeight]
  · simp only [yScale, msInYear, daysInYear, listGetJS, yearPositions_eq]
    norm_num [isLeapYear, otherYearLineHeight, yearHeight]

/-- C4: within any one configured calendar-year segment (years 2021 to
2026), `yScale` is monotonically non-decreasing: for dates `d1 ≤ d2` in the
same year both positions are defined and `position d1 ≤ position d2`. -/
theorem yScale_mono_within_segment (d1 d2 : JSDate) (hwf1 : d1.wf) (hwf2 : d2.wf)
    (hyear : d1.year = d2.year) (hlo : 2021 ≤ d1.year) (hhi : d1.year ≤ 2026)
    (hms : d1.ms ≤ d2.ms) :
    ∃ p1 p2, yScale d1 = some p1 ∧ yScale d2 = some p2 ∧ p1 ≤ p2 := by
  obtain ⟨y, m1⟩ := d1
  obtain ⟨y2, m2⟩ := d2
  have hy : y = y2 := hyear
  subst hy
  have hlo' : 2021 ≤ y := hlo
  have hhi' : y ≤ 2026 := hhi
  refine ⟨_, _, yScale_in_range y m1 hlo' hhi', yScale_in_range y m2 hlo' hhi', ?_⟩
  have hM : 0 < msInYear y := msInYear_pos y
  have hL : (0:ℚ) ≤ (if y = 2021 then year2021LineHeight else otherYearLineHeight) := by
    split
    · norm_num [year2021LineHeight]
    · norm_num [otherYearLineHeight, yearHeight]
  have hms' : m1 ≤ m2 := hms
  have hdiv : m1 / msInYear y ≤ m2 / msInYear y := by
    apply div_le_div_of_nonneg_right hms' hM.le
  exact add_le_add_left (mul_le_mul_of_nonneg_right hdiv hL) _

/-- C4 witness: the monotonicity theorem applied to 2022-01-01 and
2022-01-02. -/
theorem yScale_mono_within_segment_witness :
    (JSDate.mk 2022 0).wf ∧ (JSDate.mk 2022 86400000).wf ∧
    (∃ p1 p2, yScale ⟨2022, 0⟩ = some p1 ∧ yScale ⟨2022, 86400000⟩ = some p2 ∧ p1 ≤ p2) := by
  have h1 : (JSDate.mk 2022 0).wf := by
    constructor
    · norm_num
    · simp only [msInYear, daysInYear]
      norm_num [isLeapYear]
  have h2 : (JSDate.mk 2022 86400000).wf := by
    constructor
    · norm_num
    · simp only [msInYear, daysInYear]
      norm_num [isLeapYear]
  exact ⟨h1, h2, yScale_mono_within_segment ⟨2022, 0⟩ ⟨2022, 86400000⟩ h1 h2 rfl
    (by norm_num) (by norm_num) (by norm_num)⟩

/-- C8: a milestone dated in 2021 is rendered at the fixed y-coordinate
`year2021LineHeight / 2`, overriding `yScale` (shown by a wellformed 2021
date whose override differs from its `yScale` value), so its y does not
depend on the day within the year; for every other configured year two
wellformed dates in that year get different y-coordinates. -/
theorem milestone2021_fixed_center :
    (∀ d : JSDate, d.year = 2021 → milestoneY d = some (year2021LineHeight / 2)) ∧
    (∃ d : JSDate, d.year = 2021 ∧ d.wf ∧ milestoneY d ≠ yScale d) ∧
    (∀ y : Int, 2022 ≤ y → y ≤ 2026 →
      ∃ d1 d2 : JSDate, d1.year = y ∧ d2.year = y ∧ d1.wf ∧ d2.wf ∧
        milestoneY d1 ≠ milestoneY d2) := by
  refine ⟨?_, ?_, ?_⟩
  · intro d hd
    simp only [milestoneY, if_pos hd]
  · refine ⟨⟨2021, 0⟩, rfl, ⟨by norm_num, ?_⟩, ?_⟩
    · simp only [msInYear, daysInYear]
      norm_num [isLeapYear]
    · have hm : milestoneY ⟨2021, 0⟩ = some (year2021LineHeight / 2) := by
        simp only [milestoneY, if_pos]
      have hs : yScale ⟨2021, 0⟩ = some 0 := by
        simp only [yScale]
        norm_num
      rw [hm, hs]
      norm_num [year2021LineHeight]
  · intro y hlo hhi
    have hne : (JSDate.mk y 0).year ≠ 2021 := by simp only []; omega
    have hne' : (JSDate.mk y 86400000).year ≠ 2021 := by simp only []; omega
    have hM : 0 < msInYear y := msInYear_pos y
    have hMlarge : (86400000:ℚ) < msInYear y := by
      calc (86400000:ℚ) < 365 * 86400000 := by norm_num
        _ ≤ msInYear y := msInYear_ge y
    refine ⟨⟨y, 0⟩, ⟨y, 86400000⟩, rfl, rfl, ⟨le_refl 0, hM⟩,
      ⟨by norm_num, hMlarge⟩, ?_⟩
    simp only [milestoneY, if_neg hne, if_neg hne']
    rw [yScale_in_range y 0 (by omega) (by omega),
      yScale_in_range y 86400000 (by omega) (by omega)]
    have hy2021 : y ≠ 2021 := by omega
    simp only [if_neg hy2021, Option.some.injEq, zero_div, zero_mul, add_zero]
    intro hcontra
    have hpos : 0 < 86400000 / msInYear y * otherYearLineHeight := by
      apply mul_pos
      · exact div_pos (by norm_num) hM
      · norm_num [otherYearLineHeight, yearHeight]
    simp only [Option.some.injEq] at hcontra
    linarith [hpos]

/-- C8 witness: the fixed-centre theorem applied at 2021-03-01 and at the
year 2023. -/
theorem milestone2021_fixed_center_witness :
    milestoneY ⟨2021, 59 * 86400000⟩ = some (year2021LineHeight / 2) ∧
    (∃ d1 d2 : JSDate, d1.year = 2023 ∧ d2.year = 2023 ∧ d1.wf ∧ d2.wf ∧
      milestoneY d1 ≠ milestoneY d2) :=
  ⟨milestone2021_fixed_center.1 ⟨2021, 59 * 86400000⟩ rfl,
   milestone2021_fixed_center.2.2 2023 (by norm_num) (by norm_num)⟩

/-- Words are conserved by the wrap loop: the concatenation of the committed
lines and the current line always equals the already-processed words. -/
lemma wrap_foldl_join (measure : String → ℚ) (maxWidth : ℚ) :
    ∀ (ws : List String) (acc : List (List String)) (cur : List String),
      (ws.foldl (wrapStep measure maxWidth) (acc, cur)).1.flatten ++
        (ws.foldl (wrapStep measure maxWidth) (acc, cur)).2 =
      acc.flatten ++ cur ++ ws := by
  intro ws
  induction ws with
  | nil =>
    intro acc cur
    simp
  | cons w ws ih =>
    intro acc cur
    simp only [List.foldl_cons, wrapStep]
    by_cases hc : measure (joinWords (cur ++ [w])) > maxWidth
    · rw [if_pos hc, ih]
      simp
    · rw [if_neg hc, ih]
      simp

/-- Every line the wrap loop ever holds is within the width bound or is a
single word, provided the starting lines are. -/
lemma wrap_foldl_lines_good (measure : String → ℚ) (maxWidth : ℚ) :
    ∀ (ws : List String) (acc : List (List String)) (cur : List String),
      (∀ l ∈ acc, measure (joinWords l) ≤ maxWidth ∨ ∃ w, l = [w]) →
      (measure (joinWords cur) ≤ maxWidth ∨ ∃ w, cur = [w]) →
      ∀ l ∈ (ws.foldl (wrapStep measure maxWidth) (acc, cur)).1 ++
          [(ws.foldl (wrapStep measure maxWidth) (acc, cur)).2],
        measure (joinWords l) ≤ maxWidth ∨ ∃ w, l = [w] := by
  intro ws
  induction ws with
  | nil =>
    intro acc cur hacc hcur l hl
    simp only [List.foldl_nil] at hl
    rcases List.mem_append.mp hl with h | h
    · exact hacc l h
    · simp only [List.mem_singleton] at h
      subst h
      exact hcur
  | cons w ws ih =>
    intro acc cur hacc hcur
    simp only [List.foldl_cons, wrapStep]
    by_cases hc : measure (joinWords (cur ++ [w])) > maxWidth
    · rw [if_pos hc]
      apply ih
      · intro l hl
        rcases List.mem_append.mp hl with h | h
        · exact hacc l h
        · simp only [List.mem_singleton] at h
          subst h
          exact hcur
      · exact Or.inr ⟨w, rfl⟩
    · rw [if_neg hc]
      exact ih _ _ hacc (Or.inl (not_lt.mp hc))

/-- C2 counterexample: with the length measure and `maxWidth = 3`, the
single word `abcdef` is wider than the bound, and `wrapText` returns two
lines (an empty committed first line, then the word), not the single line
the claim states. -/
theorem wrapText_single_overlong_counterexample :
    (wrapText lengthMeasure 3 "abcdef").lineCount = 2 ∧
    (wrapText lengthMeasure 3 "abcdef").lines = [[], ["abcdef"]] := by decide

/-- C2 (amended): the overflow branch of `wrapText` does not test that the
current line is non-empty, so when the input splits into a single word wider
than `maxWidth`, the empty initial line is committed and the word starts the
second line: the result is the two lines `[]` and `[w]` with line count 2
(the word itself is never split). -/
theorem wrapText_commits_empty_line (measure : String → ℚ) (maxWidth : ℚ)
    (text w : String) (hsplit : splitWs text = [w])
    (hover : measure w > maxWidth) :
    (wrapText measure maxWidth text).lines = [[], [w]] ∧
    (wrapText measure maxWidth text).lineCount = 2 := by
  have hover' : measure (joinWords ([] ++ [w])) > maxWidth := hover
  constructor <;>
  · simp only [wrapText, hsplit, wrapWords, List.foldl_cons, List.foldl_nil, wrapStep]
    rw [if_pos hover']
    rfl

/-- C2 witness: the amended theorem applied to the overlong word `abcdef`
with the length measure and `maxWidth = 3`. -/
theorem wrapText_commits_empty_line_witness :
    splitWs "abcdef" = ["abcdef"] ∧ lengthMeasure "abcdef" > (3:ℚ) ∧
    ((wrapText lengthMeasure 3 "abcdef").lines = [[], ["abcdef"]] ∧
     (wrapText lengthMeasure 3 "abcdef").lineCount = 2) :=
  ⟨by decide, by decide,
   wrapText_commits_empty_line lengthMeasure 3 "abcdef" "abcdef" (by decide) (by decide)⟩

/-- C5: for every measure, width bound and input text, concatenating the
words of all lines returned by `wrapText`, in order, reproduces exactly the
whitespace-split word sequence of the input: no word dropped, none
duplicated. -/
theorem wrapText_preserves_words (measure : String → ℚ) (maxWidth : ℚ) (text : String) :
    (wrapText measure maxWidth text).lines.flatten = splitWs text := by
  simp only [wrapText, wrapWords]
  have h := wrap_foldl_join measure maxWidth (splitWs text) [] []
  simp only [List.flatten_nil, List.nil_append] at h
  simpa [List.flatten_append] using h

/-- C6: for every measure whose empty-string width is within the bound,
every line returned by `wrapText` has measured width at most `maxWidth`
except lines consisting of a single overlong word. -/
theorem wrapText_lines_fit (measure : String → ℚ) (maxWidth : ℚ) (text : String)
    (hempty : measure "" ≤ maxWidth) :
    ∀ line ∈ (wrapText measure maxWidth text).lines,
      measure (joinWords line) ≤ maxWidth ∨
        ∃ w, line = [w] ∧ maxWidth < measure w := by
  intro line hline
  have hgood := wrap_foldl_lines_good measure maxWidth (splitWs text) [] []
    (by intro l hl; simp at hl) (Or.inl hempty) line hline
  rcases hgood with h | ⟨w, rfl⟩
  · exact Or.inl h
  · by_cases hw : measure w ≤ maxWidth
    · exact Or.inl hw
    · exact Or.inr ⟨w, rfl, not_le.mp hw⟩

/-- C6 witness: the width-bound theorem applied to the length measure with
bound 5 and the text `ab cd ef`. -/
theorem wrapText_lines_fit_witness :
    lengthMeasure "" ≤ (5:ℚ) ∧
    ∀ line ∈ (wrapText lengthMeasure 5 "ab cd ef").lines,
      lengthMeasure (joinWords line) ≤ 5 ∨
        ∃ w, line = [w] ∧ 5 < lengthMeasure w :=
  ⟨by decide, wrapText_lines_fit lengthMeasure 5 "ab cd ef" (by decide)⟩

/-- C7: the seven enumerated categories map to their fixed colors, but an
unrecognized category (such as the default `General`) gets no color at all:
the intended fallback `config.colors.milestone` does not exist in the
config, so the expression evaluates to `undefined` rather than a defined
default color. -/
theorem categoryColors_no_default_fallback :
    milestoneColor "Founding" = some "#1D315F" ∧
    milestoneColor "Financial Milestones" = some "#B5704B" ∧
    milestoneColor "Collaborations and Workshops" = some "#CEC1B4" ∧
    milestoneColor "Team Expansion" = some "#6DB357" ∧
    milestoneColor "Knowledge Expansion" = some "#D5E398" ∧
    milestoneColor "Project Developments" = some "#D3E5EF" ∧
    milestoneColor "Publications and Media" = some "#EAB942" ∧
    configColors.lookup "milestone" = none ∧
    milestoneColor "General" = none := by decide

/-- C9: activating index `k` when it is not already active stores `k` and
writes opacity 1 at `k`, 0.6 below `k` and 0.3 above `k`; the resulting
state depends only on `k`; and re-entering the already-active index is a
no-op leaving the state unchanged. -/
theorem activateMilestone_spec (s : VizState) (k : ℕ) :
    (s.currentActiveIndex ≠ k →
      (activateMilestone k s).currentActiveIndex = k ∧
      ∀ i, (activateMilestone k s).opacity i =
        if i = k then 1 else if i < k then 0.6 else (0.3 : ℚ)) ∧
    (∀ s' : VizState, s.currentActiveIndex ≠ k → s'.currentActiveIndex ≠ k →
      activateMilestone k s = activateMilestone k s') ∧
    (s.currentActiveIndex = k → activateMilestone k s = s) := by
  refine ⟨?_, ?_, ?_⟩
  · intro h
    refine ⟨?_, ?_⟩
    · simp [activateMilestone, if_neg h]
    · intro i
      simp only [activateMilestone, if_neg h]
      rfl
  · intro s' h h'
    simp only [activateMilestone, if_neg h, if_neg h']
  · intro h
    simp only [activateMilestone, if_pos h]

/-- C9 witness: activating index 2 from the initial state (active index 0)
gives milestone 1 the past opacity 0.6, and re-activating index 0 leaves
the initial state unchanged. -/
theorem activateMilestone_spec_witness :
    (VizState.mk 0 initialOpacity).currentActiveIndex ≠ 2 ∧
    (activateMilestone 2 (VizState.mk 0 initialOpacity)).opacity 1 = 0.6 ∧
    activateMilestone 0 (VizState.mk 0 initialOpacity) = VizState.mk 0 initialOpacity := by
  refine ⟨by decide, ?_, ?_⟩
  · rw [((activateMilestone_spec (VizState.mk 0 initialOpacity) 2).1 (by decide)).2 1]
    norm_num
  · exact (activateMilestone_spec (VizState.mk 0 initialOpacity) 0).2.2 rfl

/-- C10: a hover excursion never touches the stored active index: during
the hover the hovered index has opacity 1 and all others 0.3, and after the
mouse leaves, every opacity is exactly the emphasis pattern of the stored
active index `k` — in particular, if the pre-hover state was the active
pattern for `k`, the excursion restores the state exactly. -/
theorem hover_excursion_spec (s : VizState) (k h : ℕ)
    (hk : s.currentActiveIndex = k) :
    (mouseenter h s).currentActiveIndex = k ∧
    (∀ i, (mouseenter h s).opacity i = if i = h then 1 else (0.3:ℚ)) ∧
    (mouseleave (mouseenter h s)).currentActiveIndex = k ∧
    (∀ i, (mouseleave (mouseenter h s)).opacity i =
      if i = k then 1 else if i < k then 0.6 else (0.3:ℚ)) ∧
    (s.opacity = emphasisPattern k → mouseleave (mouseenter h s) = s) := by
  obtain ⟨a, op⟩ := s
  simp only at hk
  subst hk
  refine ⟨rfl, fun i => rfl, rfl, fun i => rfl, ?_⟩
  intro hop
  have hop' : op = emphasisPattern a := hop
  simp only [mouseleave, mouseenter]
  rw [hop']

/-- C10 witness: hovering milestone 0 while index 2 is active fully
emphasizes milestone 0, and leaving restores the active-2 state exactly. -/
theorem hover_excursion_spec_witness :
    (VizState.mk 2 (emphasisPattern 2)).currentActiveIndex = 2 ∧
    (mouseenter 0 (VizState.mk 2 (emphasisPattern 2))).opacity 0 = 1 ∧
    mouseleave (mouseenter 0 (VizState.mk 2 (emphasisPattern 2))) =
      VizState.mk 2 (emphasisPattern 2) := by
  have h := hover_excursion_spec (VizState.mk 2 (emphasisPattern 2)) 2 0 rfl
  refine ⟨rfl, ?_, h.2.2.2.2 rfl⟩
  rw [h.2.1 0]
  norm_num
